import Mathlib

/-!
Verification development for the Camera-Pan Video Combiner pipeline
(src/main.py).  The pipeline core is embedded shallowly: filenames and
paths are lists of characters, the timestamp regex search and the
strptime/datetime validation are executable Lean functions modelled from
the Python source, the chronological sort is a stable sort with the
datetime key, and the external-process boundary is modelled by an
explicit behaviour parameter.
-/

namespace CameraPan

/-- Characters of a string literal, used to write concrete filenames. -/
def chars (s : String) : List Char := s.data

/-! ### Filename parser

`parse_and_sort_files` (src/main.py lines 604-640) matches the regex
`RecM0\d+_(\d{8})_(\d{6})` anywhere in the basename (`re.search`, i.e.
the leftmost position that matches wins) and then feeds the two groups
to `datetime.strptime(..., "%Y%m%d_%H%M%S")`.  Digits are modelled as
ASCII digits. -/

/-- The literal head of the timestamp pattern, `RecM0`. -/
def recM0 : List Char := ['R', 'e', 'c', 'M', '0']

/-- Does `pat` occur literally at the head of `s`? -/
def leadsWith : List Char → List Char → Bool
  | [], _ => true
  | _ :: _, [] => false
  | p :: ps, c :: cs => p == c && leadsWith ps cs

/-- Maximal run of digits at the head of the list, plus the remainder
(the behaviour of the greedy `\d+` / `\d{n}` pieces of the pattern). -/
def takeDigits : List Char → List Char × List Char
  | [] => ([], [])
  | c :: t =>
    if c.isDigit then
      let (ds, r) := takeDigits t
      (c :: ds, r)
    else ([], c :: t)

/-- Attempt to match `RecM0\d+_(\d{8})_(\d{6})` at the head of `s`,
returning the two captured groups (date digits, time digits).  Because
`\d+` is followed by a literal `_`, the greedy match cannot backtrack:
the digit run after `RecM0` is exactly the maximal one. -/
def matchAt (s : List Char) : Option (List Char × List Char) :=
  if leadsWith recM0 s then
    let (ds, r1) := takeDigits (s.drop 5)
    if ds.isEmpty then none
    else
      match r1 with
      | '_' :: r2 =>
        let date := r2.take 8
        if date.length == 8 && date.all Char.isDigit then
          match r2.drop 8 with
          | '_' :: r4 =>
            let time := r4.take 6
            if time.length == 6 && time.all Char.isDigit then some (date, time)
            else none
          | _ => none
        else none
      | _ => none
  else none

/-- `re.search`: try the pattern at every position, leftmost match wins. -/
def searchTimestamp : List Char → Option (List Char × List Char)
  | [] => none
  | s@(_ :: t) =>
    match matchAt s with
    | some r => some r
    | none => searchTimestamp t

/-- A parsed timestamp (the fields of the Python `datetime`). -/
structure Timestamp where
  year : Nat
  month : Nat
  day : Nat
  hour : Nat
  minute : Nat
  second : Nat
deriving DecidableEq, Repr

/-- Numeric value of a digit string (the `int` conversion performed by
`_strptime` on each captured field). -/
def digitsToNat (l : List Char) : Nat :=
  l.foldl (fun a c => 10 * a + (c.toNat - 48)) 0

/-- Gregorian leap-year rule used by `datetime`. -/
def isLeap (y : Nat) : Bool :=
  (y % 4 == 0 && y % 100 != 0) || y % 400 == 0

/-- Days in a month, as validated by the `datetime` constructor. -/
def daysInMonth (y m : Nat) : Nat :=
  if m == 2 then (if isLeap y then 29 else 28)
  else if m == 4 || m == 6 || m == 9 || m == 11 then 30
  else 31

/-- `datetime.strptime(date ++ "_" ++ time, "%Y%m%d_%H%M%S")` on an
8-digit date group and a 6-digit time group.  The `_strptime` regex
forces the split 4/2/2 and 2/2/2 and bounds month 01-12, day 01-31,
hour 00-23, minute 00-59, second 00-61; the `datetime` constructor then
rejects year 0, days beyond the month length, and seconds above 59.
Any rejection surfaces as `ValueError`, modelled by `none`. -/
def strptimeYmdHMS (date time : List Char) : Option Timestamp :=
  let y := digitsToNat (date.take 4)
  let mo := digitsToNat ((date.drop 4).take 2)
  let d := digitsToNat (date.drop 6)
  let h := digitsToNat (time.take 2)
  let mi := digitsToNat ((time.drop 2).take 2)
  let s := digitsToNat (time.drop 4)
  if 1 ≤ mo && mo ≤ 12 && 1 ≤ d && d ≤ 31 && h ≤ 23 && mi ≤ 59 && s ≤ 61 then
    if 1 ≤ y && d ≤ daysInMonth y mo && s ≤ 59 then
      some ⟨y, mo, d, h, mi, s⟩
    else none
  else none

/-- The per-filename work of `parse_and_sort_files`: regex search, then
`strptime`; `none` means the file is reported and excluded. -/
def parseFilename (filename : List Char) : Option Timestamp :=
  match searchTimestamp filename with
  | some (date, time) => strptimeYmdHMS date time
  | none => none

/-- `os.path.basename`: the part of the path after the last separator
(modelled with the POSIX separator). -/
def basename (p : List Char) : List Char :=
  ((p.reverse.takeWhile (fun c => c != '/')).reverse)

/-! ### Chronological sorter

The Python code sorts the parsed triples `(dt, file_path, filename)` by
`x[0]` with `list.sort`, a stable sort; it is modelled by the stable
`List.insertionSort` (any two stable sorts under the same total
preorder agree).  `Timestamp.le` is the comparison of two `datetime`
values: lexicographic on the six fields. -/

/-- `datetime` comparison: lexicographic on year, month, day, hour,
minute, second. -/
def Timestamp.le (a b : Timestamp) : Bool :=
  if a.year != b.year then decide (a.year < b.year)
  else if a.month != b.month then decide (a.month < b.month)
  else if a.day != b.day then decide (a.day < b.day)
  else if a.hour != b.hour then decide (a.hour < b.hour)
  else if a.minute != b.minute then decide (a.minute < b.minute)
  else decide (a.second ≤ b.second)

/-- One entry of the parsed list: `(dt, file_path, filename)`. -/
abbrev Entry : Type := Timestamp × List Char × List Char

/-- The parsed list built by the loop of `parse_and_sort_files`:
one triple `(dt, file_path, filename)` per file whose basename both
matches the pattern and survives `strptime`. -/
def parsedEntries (video_files : List (List Char)) : List Entry :=
  video_files.filterMap (fun file_path =>
    match parseFilename (basename file_path) with
    | some dt => some (dt, file_path, basename file_path)
    | none => none)

/-- The sort key comparison `lambda x: x[0]` lifted to the triples. -/
def entryLE (a b : Entry) : Prop :=
  Timestamp.le a.1 b.1 = true

instance : DecidableRel entryLE := fun a b =>
  inferInstanceAs (Decidable (Timestamp.le a.1 b.1 = true))

/-- `parse_and_sort_files` (lines 604-640): parse each basename, drop
failures, return `[]` when nothing parsed, else the paths sorted by
timestamp (stable, oldest first). -/
def parse_and_sort_files (video_files : List (List Char)) : List (List Char) :=
  let parsed_files := parsedEntries video_files
  if parsed_files.isEmpty then []
  else (parsed_files.insertionSort entryLE).map (fun x => x.2.1)

/-! ### File discovery

`find_video_files_in_folder` (lines 570-591) globs
`RecM0*<ext>` for the six case-variant extensions, collects the matches
into a `set` (deduplicating), and hands the survivors to
`parse_and_sort_files`.  The filesystem enumeration is supplied as the
directory listing; a glob pattern `RecM0**.<ext>` matches exactly the
names that start with `RecM0` and end with the extension. -/

/-- Does `suf` occur literally at the end of `s`? -/
def endsIn (suf s : List Char) : Bool :=
  leadsWith suf.reverse s.reverse

/-- The six case-variant extension patterns `*.mp4 ... *.MOV` reduced to
their suffixes. -/
def video_extensions : List (List Char) :=
  [chars ".mp4", chars ".MP4", chars ".avi", chars ".AVI", chars ".mov", chars ".MOV"]

/-- `os.path.normcase` as applied by `fnmatch` on the deployment
platform (the tool ships `ffmpeg.exe`): case is folded, which is what
lets one file match several of the case-variant patterns. -/
def normcase (l : List Char) : List Char := l.map Char.toLower

/-- One glob pattern `RecM0*<ext>`: the case-normalised name starts
with `recm0` and ends with the normalised extension. -/
def globMatch (ext name : List Char) : Bool :=
  leadsWith (normcase recM0) (normcase name) && endsIn (normcase ext) (normcase name)

/-- The concatenation of the six `glob.glob` calls on the listing; a
file matching several case-variant patterns appears several times. -/
def globResults (dirListing : List (List Char)) : List (List Char) :=
  video_extensions.flatMap (fun ext => dirListing.filter (globMatch ext))

/-- `find_video_files_in_folder`: glob, deduplicate via `set`, report
and stop on empty, else parse and sort. -/
def find_video_files_in_folder (dirListing : List (List Char)) : List (List Char) :=
  let video_files := (globResults dirListing).dedup
  if video_files.isEmpty then []
  else parse_and_sort_files video_files

/-- `process_selected_files` (lines 593-602): empty selection stops,
else parse and sort the user-picked files. -/
def process_selected_files (selected_files : List (List Char)) : List (List Char) :=
  if selected_files.isEmpty then []
  else parse_and_sort_files selected_files

/-- The filter of `browse_input_files` (lines 470-482): keep exactly the
paths whose basename starts with `RecM0`. -/
def browse_valid_files (files : List (List Char)) : List (List Char) :=
  files.filter (fun file_path => leadsWith recM0 (basename file_path))

/-! ### Concatenation planner

`merge_videos_with_ffmpeg` (lines 657-668) writes one line
`file '<escaped>'` per video, escaping backslashes first and single
quotes second (`.replace('\\', '\\\\').replace("'", "\\'")`). -/

/-- Python `str.replace` with a single-character pattern. -/
def replaceChar (c : Char) (r : List Char) : List Char → List Char
  | [] => []
  | x :: t => if x == c then r ++ replaceChar c r t else x :: replaceChar c r t

/-- The path escaping of the playlist: double every backslash, then
put a backslash before every single quote. -/
def escapePath (p : List Char) : List Char :=
  replaceChar '\'' ['\\', '\''] (replaceChar '\\' ['\\', '\\'] p)

/-- The lines of the temporary concat playlist, in merge order (the
trailing newline of each written line is left implicit). -/
def playlistLines (video_files : List (List Char)) : List (List Char) :=
  video_files.map (fun v => chars "file '" ++ escapePath v ++ ['\''])

/-! ### Merge executor

The process boundary is modelled by a behaviour parameter: what the
external tool would do if launched.  `subprocessRun` is the semantics
of `subprocess.run`: a `TimeoutExpired` outcome can only arise when a
`timeout` argument is passed, and the call at lines 689-693 passes
none. -/

/-- Result of `check_ffmpeg_binary` (lines 53-85). -/
structure CheckResult where
  available : Bool
  status : List Char
  path : Option (List Char)

/-- Behaviour of the external tool for one invocation: either it runs
for `duration` seconds and exits with `returncode`, or launching raises. -/
inductive ProcBehavior where
  | runs (duration : Nat) (returncode : Int) (stdout stderr : List Char)
  | failsToLaunch (msg : List Char)

/-- Outcome of `subprocess.run` as seen by the caller. -/
inductive RunResult where
  | completed (returncode : Int) (stdout stderr : List Char)
  | timedOut
  | launchError (msg : List Char)
deriving DecidableEq

/-- `subprocess.run` semantics: `TimeoutExpired` is raised exactly when
a timeout was requested and the process outlives it. -/
def subprocessRun (timeout : Option Nat) (proc : ProcBehavior) : RunResult :=
  match proc with
  | .runs duration rc out err =>
    match timeout with
    | some t => if t < duration then .timedOut else .completed rc out err
    | none => .completed rc out err
  | .failsToLaunch m => .launchError m

/-- The `log_message` calls of the executor, as tagged events carrying
the data interpolated into the logged strings. -/
inductive LogEvent where
  | ffmpegUnavailable (status : List Char)
  | usingFFmpeg (path : List Char)
  | createdConcatList (n : Nat)
  | mergeSuccess
  | processFailed (returncode : Int) (stdout stderr : List Char)
  | processTimedOut
  | runError (msg : List Char)
  | cleanedUp
  | cleanupWarning (msg : List Char)
deriving DecidableEq

/-- What one call of the merge executor produces: its return value, its
log, and whether the temporary playlist file still exists afterwards. -/
structure ExecResult where
  success : Bool
  events : List LogEvent
  playlistExistsAfter : Bool

/-- `merge_videos_with_ffmpeg` (lines 642-747).  The defensive
re-check runs first (before any playlist exists); then the playlist is
created, the tool is run with no timeout argument, the return code is
interpreted (`0` = success, anything else logged with stdout/stderr and
failed, a launch exception logged and failed), and the `finally` block
deletes the playlist, downgrading a deletion error to a warning that
leaves the return value unchanged. -/
def merge_videos_with_ffmpeg (check : CheckResult) (proc : ProcBehavior)
    (cleanupError : Option (List Char)) (video_files : List (List Char)) : ExecResult :=
  if !check.available then
    { success := false, events := [.ffmpegUnavailable check.status],
      playlistExistsAfter := false }
  else
    let headEvents : List LogEvent :=
      [.usingFFmpeg (check.path.getD []), .createdConcatList video_files.length]
    let runOutcome : Bool × List LogEvent :=
      match subprocessRun none proc with
      | .completed rc out err =>
        if rc == 0 then (true, [.mergeSuccess])
        else (false, [.processFailed rc out err])
      | .timedOut => (false, [.processTimedOut])
      | .launchError m => (false, [.runError m])
    match cleanupError with
    | none =>
      { success := runOutcome.1, events := headEvents ++ runOutcome.2 ++ [.cleanedUp],
        playlistExistsAfter := false }
    | some m =>
      { success := runOutcome.1, events := headEvents ++ runOutcome.2 ++ [.cleanupWarning m],
        playlistExistsAfter := true }

/-! ### Job orchestration -/

/-- The two mutually exclusive input modes. -/
inductive Mode where
  | folder
  | files

/-- Inputs of one user-triggered run of `merge_videos`, with the
filesystem facts and the user's overwrite answer supplied as data. -/
structure RunContext where
  outputFolderExists : Bool
  mode : Mode
  inputFolderExists : Bool
  dirListing : List (List Char)
  selected_files : List (List Char)
  outputExists : Bool
  userConfirmsOverwrite : Bool

/-- The tail of `merge_videos` after discovery produced `video_files`:
stop on an empty survivor set, stop on a declined overwrite, otherwise
invoke the executor on exactly this list. -/
def mergeAfterDiscovery (video_files : List (List Char)) (ctx : RunContext) :
    Option (List (List Char)) :=
  if video_files.isEmpty then none
  else if ctx.outputExists && !ctx.userConfirmsOverwrite then none
  else some video_files

/-- `merge_videos` (lines 749-793) up to the decision to invoke the
merge executor: `some fs` means `merge_videos_with_ffmpeg` is called on
`fs`; `none` means the run stops first (missing folder, empty survivor
set, or declined overwrite). -/
def merge_videos_invocation (ctx : RunContext) : Option (List (List Char)) :=
  if !ctx.outputFolderExists then none
  else
    match ctx.mode with
    | .folder =>
      if !ctx.inputFolderExists then none
      else mergeAfterDiscovery (find_video_files_in_folder ctx.dirListing) ctx
    | .files => mergeAfterDiscovery (process_selected_files ctx.selected_files) ctx

/-! ### Derived notions used by the statements -/

/-- The timestamp the pipeline associates to a path, when any. -/
def fileKey (p : List Char) : Option Timestamp :=
  parseFilename (basename p)

/-- Does every occurrence of the structural pattern in the name parse
to the timestamp `ts`?  (Trivially true for names with a single
occurrence.) -/
def allMatchesGive (ts : Timestamp) : List Char → Bool
  | [] => true
  | s@(_ :: t) =>
    (match matchAt s with
     | some (date, time) => decide (strptimeYmdHMS date time = some ts)
     | none => true) && allMatchesGive ts t

/-- Is the head character a digit? -/
def headDigit : List Char → Bool
  | [] => false
  | c :: _ => c.isDigit

/-- No suffix of the list starts with the literal `RecM0`. -/
def noRecM0Inside : List Char → Bool
  | [] => true
  | s@(_ :: t) => !leadsWith recM0 s && noRecM0Inside t

/-- A concrete successful resolver result, used to instantiate the
executor statements. -/
def okCheck : CheckResult :=
  { available := true, status := chars "Using bundled FFmpeg", path := some (chars "ffmpeg") }

/-! ## Properties of the timestamp order -/

/-- `Timestamp.le` characterised as a lexicographic comparison. -/
theorem Timestamp.le_iff (a b : Timestamp) :
    Timestamp.le a b = true ↔
      (a.year < b.year ∨ (a.year = b.year ∧ (a.month < b.month ∨ (a.month = b.month ∧
        (a.day < b.day ∨ (a.day = b.day ∧ (a.hour < b.hour ∨ (a.hour = b.hour ∧
        (a.minute < b.minute ∨ (a.minute = b.minute ∧
          a.second ≤ b.second)))))))))) := by
  unfold Timestamp.le
  split_ifs <;>
    simp_all only [bne_iff_ne, ne_eq, decide_eq_true_eq, not_not, false_and,
      and_false, false_or, or_false, true_and, and_true] <;> omega

theorem Timestamp.le_refl (a : Timestamp) : Timestamp.le a a = true := by
  rw [Timestamp.le_iff]; omega

theorem entryLE_total (a b : Entry) : entryLE a b ∨ entryLE b a := by
  unfold entryLE
  rw [Timestamp.le_iff, Timestamp.le_iff]
  omega

theorem entryLE_trans (a b c : Entry) : entryLE a b → entryLE b c → entryLE a c := by
  unfold entryLE
  rw [Timestamp.le_iff, Timestamp.le_iff, Timestamp.le_iff]
  omega

/-! ## Soundness and completeness of the regex search -/

theorem matchAt_nil : matchAt [] = none := rfl

/-- Whatever `searchTimestamp` returns was a match at some position. -/
theorem searchTimestamp_sound (s : List Char) (r : List Char × List Char)
    (h : searchTimestamp s = some r) : ∃ j, matchAt (s.drop j) = some r := by
  induction s with
  | nil => exact absurd h (by simp [searchTimestamp])
  | cons c t ih =>
    rw [searchTimestamp] at h
    rcases hm : matchAt (c :: t) with _ | r0 <;> rw [hm] at h
    · obtain ⟨j, hj⟩ := ih h
      exact ⟨j + 1, hj⟩
    · exact ⟨0, by rw [List.drop_zero, hm]; exact h⟩

/-- If the pattern matches at any position, the search finds a match. -/
theorem searchTimestamp_complete (s : List Char) (j : Nat)
    (r : List Char × List Char) (h : matchAt (s.drop j) = some r) :
    (searchTimestamp s).isSome := by
  induction s generalizing j with
  | nil => rw [List.drop_nil, matchAt_nil] at h; cases h
  | cons c t ih =>
    cases j with
    | zero =>
      rw [List.drop_zero] at h
      rw [searchTimestamp, h]
      rfl
    | succ j =>
      rw [List.drop_succ_cons] at h
      have hsome := ih j h
      rw [searchTimestamp]
      rcases hm : matchAt (c :: t) with _ | r0
      · exact hsome
      · rfl

/-- When every occurrence of the pattern in `s` parses to `ts`, any
match found anywhere in `s` parses to `ts`. -/
theorem allMatchesGive_spec (ts : Timestamp) (s : List Char)
    (h : allMatchesGive ts s = true) (j : Nat) (date time : List Char)
    (hm : matchAt (s.drop j) = some (date, time)) :
    strptimeYmdHMS date time = some ts := by
  induction s generalizing j with
  | nil => rw [List.drop_nil, matchAt_nil] at hm; cases hm
  | cons c t ih =>
    rw [allMatchesGive, Bool.and_eq_true] at h
    cases j with
    | zero =>
      rw [List.drop_zero] at hm
      have h1 := h.1
      rw [hm] at h1
      simpa using h1
    | succ j =>
      rw [List.drop_succ_cons] at hm
      exact ih h.2 j hm

/-! ## Claim C1 -/

/-- Claim C1 counterexample: the filename
`RecM01_20241301_000000_RecM01_20240101_000000.mp4` contains the token
`RecM01_20240101_000000` (at offset 23), whose date and time are a
valid calendar date and time of day, yet the parser rejects the file:
`re.search` stops at the leftmost structural match, whose month 13
fails `strptime`.  The claim, quantified over all filenames containing
a valid token, is therefore false. -/
theorem C1_counterexample :
    matchAt ((chars "RecM01_20241301_000000_RecM01_20240101_000000.mp4").drop 23) =
      some (chars "20240101", chars "000000") ∧
    strptimeYmdHMS (chars "20240101") (chars "000000") = some ⟨2024, 1, 1, 0, 0, 0⟩ ∧
    parseFilename (chars "RecM01_20241301_000000_RecM01_20240101_000000.mp4") = none := by
  decide

/-- Claim C1 (amended): for every filename containing the token
`RecM0<digits>_<8-digit-date>_<6-digit-time>` whose date and time are a
valid calendar date and time of day `ts`, provided every occurrence of
the structural pattern in the name parses to that same `ts` (in
particular whenever the occurrence is unique), the parser accepts the
file with timestamp `ts`. -/
theorem C1_parser_accepts_valid_token (f date time : List Char) (ts : Timestamp) (j : Nat)
    (hmatch : matchAt (f.drop j) = some (date, time))
    (_hvalid : strptimeYmdHMS date time = some ts)
    (hall : allMatchesGive ts f = true) :
    parseFilename f = some ts := by
  have hsome := searchTimestamp_complete f j _ hmatch
  rcases hs : searchTimestamp f with _ | ⟨d0, t0⟩
  · rw [hs] at hsome; cases hsome
  · obtain ⟨j0, hj0⟩ := searchTimestamp_sound f _ hs
    have hgood := allMatchesGive_spec ts f hall j0 d0 t0 hj0
    rw [parseFilename, hs]
    exact hgood

/-- Claim C1 witness: `RecM01_20240315_143022.mp4` is accepted with the
timestamp 2024-03-15 14:30:22. -/
theorem C1_witness :
    parseFilename (chars "RecM01_20240315_143022.mp4") = some ⟨2024, 3, 15, 14, 30, 22⟩ :=
  C1_parser_accepts_valid_token (chars "RecM01_20240315_143022.mp4")
    (chars "20240315") (chars "143022") ⟨2024, 3, 15, 14, 30, 22⟩ 0
    (by decide) (by decide) (by decide)

/-! ## Structure of the parsed list -/

/-- Unfolding lemma: a file that parses contributes its entry. -/
theorem parsedEntries_cons_some (t : List (List Char)) (p : List Char) (dt : Timestamp)
    (hk : parseFilename (basename p) = some dt) :
    parsedEntries (p :: t) = (dt, p, basename p) :: parsedEntries t := by
  simp only [parsedEntries, List.filterMap_cons, hk]

/-- Unfolding lemma: a file that fails to parse contributes nothing. -/
theorem parsedEntries_cons_none (t : List (List Char)) (p : List Char)
    (hk : parseFilename (basename p) = none) :
    parsedEntries (p :: t) = parsedEntries t := by
  simp only [parsedEntries, List.filterMap_cons, hk]

/-- Every parsed entry records the timestamp and basename of its own
path. -/
theorem parsedEntries_mem (files : List (List Char)) (e : Entry)
    (he : e ∈ parsedEntries files) :
    fileKey e.2.1 = some e.1 ∧ e.2.2 = basename e.2.1 := by
  rw [parsedEntries, List.mem_filterMap] at he
  obtain ⟨p, _, hp⟩ := he
  rcases hk : parseFilename (basename p) with _ | dt <;> rw [hk] at hp
  · cases hp
  · cases hp
    exact ⟨hk, rfl⟩

/-- The path of every parsed entry comes from the input list. -/
theorem parsedEntries_path_mem (files : List (List Char)) (e : Entry)
    (he : e ∈ parsedEntries files) : e.2.1 ∈ files := by
  rw [parsedEntries, List.mem_filterMap] at he
  obtain ⟨p, hp, hgp⟩ := he
  rcases hk : parseFilename (basename p) with _ | dt <;> rw [hk] at hgp
  · cases hgp
  · cases hgp
    exact hp

/-- Projecting the paths of a list of self-consistent entries and
re-parsing them recovers the timestamps. -/
theorem filterMap_fileKey_entries (l : List Entry)
    (h : ∀ e ∈ l, fileKey e.2.1 = some e.1) :
    (l.map (fun x => x.2.1)).filterMap fileKey = l.map (fun x => x.1) := by
  induction l with
  | nil => rfl
  | cons e t ih =>
    simp only [List.map_cons, List.filterMap_cons]
    rw [h e (List.mem_cons_self e t)]
    rw [ih (fun x hx => h x (List.mem_cons_of_mem e hx))]

/-- Every path returned by `parse_and_sort_files` carries a parseable
timestamp. -/
theorem mem_parse_and_sort_isSome (files : List (List Char)) (p : List Char)
    (hp : p ∈ parse_and_sort_files files) : (fileKey p).isSome := by
  simp only [parse_and_sort_files] at hp
  split at hp
  · cases hp
  · rw [List.mem_map] at hp
    obtain ⟨e, he, rfl⟩ := hp
    rw [List.mem_insertionSort] at he
    rw [(parsedEntries_mem files e he).1]
    rfl

/-- The timestamps of the output of `parse_and_sort_files` are
non-decreasing. -/
theorem parse_and_sort_sorted (files : List (List Char)) :
    List.Pairwise (fun a b : Timestamp => Timestamp.le a b = true)
      ((parse_and_sort_files files).filterMap fileKey) := by
  haveI : IsTotal Entry entryLE := ⟨entryLE_total⟩
  haveI : IsTrans Entry entryLE := ⟨entryLE_trans⟩
  simp only [parse_and_sort_files]
  split
  · exact List.Pairwise.nil
  · have hs : List.Pairwise entryLE ((parsedEntries files).insertionSort entryLE) :=
      List.sorted_insertionSort entryLE (parsedEntries files)
    have hmem : ∀ e ∈ (parsedEntries files).insertionSort entryLE,
        fileKey e.2.1 = some e.1 := by
      intro e he
      rw [List.mem_insertionSort] at he
      exact (parsedEntries_mem files e he).1
    rw [filterMap_fileKey_entries _ hmem, List.pairwise_map]
    exact hs.imp (fun h => h)

/-- With every file parseable, the parsed timestamps in input order. -/
theorem parsedEntries_keys (files : List (List Char))
    (h1 : ∀ p ∈ files, (fileKey p).isSome) :
    (parsedEntries files).map (fun x => x.1) = files.filterMap fileKey := by
  induction files with
  | nil => rfl
  | cons p t ih =>
    have hp := h1 p (List.mem_cons_self p t)
    rcases hk : parseFilename (basename p) with _ | dt
    · rw [show fileKey p = none from hk] at hp
      cases hp
    · rw [parsedEntries_cons_some t p dt hk, List.map_cons, List.filterMap_cons,
        show fileKey p = some dt from hk,
        ih (fun q hq => h1 q (List.mem_cons_of_mem p hq))]

/-- With every file parseable, the parsed paths are the input. -/
theorem parsedEntries_paths (files : List (List Char))
    (h1 : ∀ p ∈ files, (fileKey p).isSome) :
    (parsedEntries files).map (fun x => x.2.1) = files := by
  induction files with
  | nil => rfl
  | cons p t ih =>
    have hp := h1 p (List.mem_cons_self p t)
    rcases hk : parseFilename (basename p) with _ | dt
    · rw [show fileKey p = none from hk] at hp
      cases hp
    · rw [parsedEntries_cons_some t p dt hk, List.map_cons,
        ih (fun q hq => h1 q (List.mem_cons_of_mem p hq))]

/-- Sorting a fully parseable, already chronologically ordered list is
the identity. -/
theorem parse_and_sort_of_sorted (files : List (List Char))
    (h1 : ∀ p ∈ files, (fileKey p).isSome)
    (h2 : List.Pairwise (fun a b : Timestamp => Timestamp.le a b = true)
      (files.filterMap fileKey)) :
    parse_and_sort_files files = files := by
  have e1 := parsedEntries_keys files h1
  have e2 := parsedEntries_paths files h1
  have hpw : List.Pairwise entryLE (parsedEntries files) := by
    rw [← e1, List.pairwise_map] at h2
    exact h2.imp (fun h => h)
  have hsort : (parsedEntries files).insertionSort entryLE = parsedEntries files :=
    List.Sorted.insertionSort_eq hpw
  simp only [parse_and_sort_files]
  split
  · rename_i hemp
    rw [List.isEmpty_iff] at hemp
    rw [hemp, List.map_nil] at e2
    exact e2
  · rw [hsort, e2]

/-! ## Claim C2 -/

/-- Claim C2: the timestamps of the segments returned by
`parse_and_sort_files` are non-decreasing (oldest first); applying it
to an already chronologically sorted, fully parseable sequence leaves
the sequence unchanged; and the whole operation is idempotent. -/
theorem C2_sorter_sorted_and_idempotent (files : List (List Char)) :
    List.Pairwise (fun a b : Timestamp => Timestamp.le a b = true)
      ((parse_and_sort_files files).filterMap fileKey) ∧
    ((∀ p ∈ files, (fileKey p).isSome) →
      List.Pairwise (fun a b : Timestamp => Timestamp.le a b = true)
        (files.filterMap fileKey) →
      parse_and_sort_files files = files) ∧
    parse_and_sort_files (parse_and_sort_files files) = parse_and_sort_files files := by
  refine ⟨parse_and_sort_sorted files,
    fun h1 h2 => parse_and_sort_of_sorted files h1 h2, ?_⟩
  exact parse_and_sort_of_sorted (parse_and_sort_files files)
    (fun p hp => mem_parse_and_sort_isSome files p hp)
    (parse_and_sort_sorted files)

/-- Claim C2 witness: a concrete already-sorted pair of files is left
unchanged. -/
theorem C2_witness :
    parse_and_sort_files
      [chars "RecM03_20240101_083000.mov", chars "RecM01_20240101_090000.mp4"] =
      [chars "RecM03_20240101_083000.mov", chars "RecM01_20240101_090000.mp4"] :=
  (C2_sorter_sorted_and_idempotent
    [chars "RecM03_20240101_083000.mov", chars "RecM01_20240101_090000.mp4"]).2.1
    (by decide) (by decide)

/-! ## Claim C9 -/

/-- Claim C9: the sort is stable; two files with equal parsed
timestamps keep their relative input order in the output. -/
theorem C9_equal_timestamps_stable (files : List (List Char)) (a b : List Char)
    (ts : Timestamp) (ha : fileKey a = some ts) (hb : fileKey b = some ts)
    (hsub : [a, b].Sublist files) :
    [a, b].Sublist (parse_and_sort_files files) := by
  have hsubE : [(ts, a, basename a), (ts, b, basename b)].Sublist (parsedEntries files) := by
    have h := hsub.filterMap (fun file_path =>
      match parseFilename (basename file_path) with
      | some dt => some (dt, file_path, basename file_path)
      | none => none)
    simpa [List.filterMap_cons, show parseFilename (basename a) = some ts from ha,
      show parseFilename (basename b) = some ts from hb, parsedEntries] using h
  have hpair : [(ts, a, basename a), (ts, b, basename b)].Sublist
      ((parsedEntries files).insertionSort entryLE) :=
    List.pair_sublist_insertionSort (Timestamp.le_refl ts) hsubE
  have hne : (parsedEntries files).isEmpty = false := by
    rcases hq : parsedEntries files with _ | ⟨x, xs⟩
    · rw [hq] at hsubE
      cases hsubE
    · rfl
  simp only [parse_and_sort_files, hne]
  rw [if_neg Bool.false_ne_true]
  have hmap := hpair.map (fun x : Entry => x.2.1)
  simpa using hmap

/-- Claim C9 witness: two files with the same timestamp, listed after a
later-timestamped file, appear in the output in their input order. -/
theorem C9_witness :
    [chars "RecM01_20240101_000000.mp4", chars "RecM02_20240101_000000.MP4"].Sublist
      (parse_and_sort_files
        [chars "RecM05_20250101_000000.mp4",
         chars "RecM01_20240101_000000.mp4",
         chars "RecM02_20240101_000000.MP4"]) :=
  C9_equal_timestamps_stable
    [chars "RecM05_20250101_000000.mp4",
     chars "RecM01_20240101_000000.mp4",
     chars "RecM02_20240101_000000.MP4"]
    (chars "RecM01_20240101_000000.mp4") (chars "RecM02_20240101_000000.MP4")
    ⟨2024, 1, 1, 0, 0, 0⟩ (by decide) (by decide)
    (List.Sublist.cons _ (List.Sublist.refl _))

/-! ## Claim C5 -/

/-- Dropping the unparseable files from the input does not change the
parsed list. -/
theorem parsedEntries_filter_isSome (files : List (List Char)) :
    parsedEntries (files.filter (fun q => (fileKey q).isSome)) = parsedEntries files := by
  induction files with
  | nil => rfl
  | cons q t ih =>
    rcases hk : parseFilename (basename q) with _ | dt
    · have hk' : ((fileKey q).isSome : Bool) = false := by
        rw [show fileKey q = none from hk]
        rfl
      rw [List.filter_cons, hk', if_neg Bool.false_ne_true,
        parsedEntries_cons_none t q hk]
      exact ih
    · have hk' : ((fileKey q).isSome : Bool) = true := by
        rw [show fileKey q = some dt from hk]
        rfl
      rw [List.filter_cons, hk', if_pos rfl, parsedEntries_cons_some _ q dt hk,
        parsedEntries_cons_some t q dt hk, ih]

/-- Claim C5: a file whose name does not match the pattern, or matches
with an invalid calendar date, is excluded from the output, and the
remaining files are processed exactly as if the bad file were absent. -/
theorem C5_unparsable_excluded (files : List (List Char)) (p : List Char)
    (h : fileKey p = none) :
    p ∉ parse_and_sort_files files ∧
    parse_and_sort_files files =
      parse_and_sort_files (files.filter (fun q => (fileKey q).isSome)) := by
  constructor
  · intro hp
    have hsome := mem_parse_and_sort_isSome files p hp
    rw [h] at hsome
    cases hsome
  · simp only [parse_and_sort_files, parsedEntries_filter_isSome]

/-- Claim C5 witness: the month-13 file `RecM01_20241301_000000.mp4` is
excluded while the good file is still processed. -/
theorem C5_witness :
    chars "RecM01_20241301_000000.mp4" ∉ parse_and_sort_files
      [chars "RecM01_20240315_143022.mp4", chars "RecM01_20241301_000000.mp4",
       chars "notes.txt"] ∧
    parse_and_sort_files
      [chars "RecM01_20240315_143022.mp4", chars "RecM01_20241301_000000.mp4",
       chars "notes.txt"] =
      parse_and_sort_files
        ([chars "RecM01_20240315_143022.mp4", chars "RecM01_20241301_000000.mp4",
          chars "notes.txt"].filter (fun q => (fileKey q).isSome)) :=
  C5_unparsable_excluded
    [chars "RecM01_20240315_143022.mp4", chars "RecM01_20241301_000000.mp4",
     chars "notes.txt"]
    (chars "RecM01_20241301_000000.mp4") (by decide)

/-! ## Claim C3 -/

/-- Replacing a character that does not occur is the identity. -/
theorem replaceChar_not_mem (c : Char) (r : List Char) (l : List Char) (h : c ∉ l) :
    replaceChar c r l = l := by
  induction l with
  | nil => rfl
  | cons x t ih =>
    have hx : (x == c) = false := by
      simp only [beq_eq_false_iff_ne, ne_eq]
      intro hxc
      exact h (hxc ▸ List.mem_cons_self x t)
    rw [replaceChar, hx, if_neg Bool.false_ne_true,
      ih (fun hc => h (List.mem_cons_of_mem x hc))]

/-- Claim C3 counterexample: the spec's stated escaped form of
`C:\cam's\RecM01_20240101_000000.mp4` (four backslashes after the drive
letter, and the quote's escaping backslash doubled) is not what the
code produces. -/
theorem C3_counterexample :
    escapePath (chars "C:\\cam's\\RecM01_20240101_000000.mp4") ≠
      chars "C:\\\\\\\\cam\\\\'s\\\\RecM01_20240101_000000.mp4" := by
  decide

/-- Claim C3 (amended): escaping applies backslash doubling first and
single-quote escaping second; `C:\cam's\RecM01_20240101_000000.mp4`
escapes to `C:\\cam\'s\\RecM01_20240101_000000.mp4` (each backslash
doubled, each quote preceded by one backslash), and a path containing
neither character is left unchanged. -/
theorem C3_escape_form (p : List Char)
    (h1 : '\\' ∉ p) (h2 : '\'' ∉ p) :
    escapePath (chars "C:\\cam's\\RecM01_20240101_000000.mp4") =
      chars "C:\\\\cam\\'s\\\\RecM01_20240101_000000.mp4" ∧
    escapePath p = p := by
  refine ⟨by decide, ?_⟩
  rw [escapePath, replaceChar_not_mem _ _ _ h1, replaceChar_not_mem _ _ _ h2]

/-- Claim C3 witness: the concrete escaped form, and a plain filename
passing through unchanged. -/
theorem C3_witness :
    escapePath (chars "C:\\cam's\\RecM01_20240101_000000.mp4") =
      chars "C:\\\\cam\\'s\\\\RecM01_20240101_000000.mp4" ∧
    escapePath (chars "RecM01_20240101_000000.mp4") =
      chars "RecM01_20240101_000000.mp4" :=
  C3_escape_form (chars "RecM01_20240101_000000.mp4") (by decide) (by decide)

/-! ## Claim C4 -/

/-- Claim C4 counterexample: no wall-clock timeout is enforced on the
external tool (the `subprocess.run` call passes no timeout), so a run
lasting 10^9 seconds — beyond any bounded timeout, in particular the
five minutes mentioned in the code's dead timeout handler — still
yields success when the exit code is zero, contradicting the claim
that any run exceeding a bounded wall-clock timeout yields failure. -/
theorem C4_counterexample :
    (merge_videos_with_ffmpeg okCheck (.runs 1000000000 0 [] []) none
      [chars "RecM01_20240101_000000.mp4"]).success = true := rfl

/-- Claim C4 (amended): with the tool available, the merge executor
reports success exactly when the exit code is zero, regardless of how
long the run takes (no timeout is enforced); a non-zero exit code is a
failure whose diagnostic stream is surfaced in the log, and a launch
exception is a failure whose message is surfaced in the log. -/
theorem C4_exit_code_semantics (check : CheckResult) (d : Nat) (rc : Int)
    (out err m : List Char) (cleanupError : Option (List Char))
    (files : List (List Char)) (ha : check.available = true) :
    ((merge_videos_with_ffmpeg check (.runs d rc out err) cleanupError files).success
      = (rc == 0)) ∧
    (rc ≠ 0 → LogEvent.processFailed rc out err ∈
      (merge_videos_with_ffmpeg check (.runs d rc out err) cleanupError files).events) ∧
    (merge_videos_with_ffmpeg check (.failsToLaunch m) cleanupError files).success
      = false ∧
    LogEvent.runError m ∈
      (merge_videos_with_ffmpeg check (.failsToLaunch m) cleanupError files).events := by
  have hrc : (rc == 0) = true ∨ (rc == 0) = false := by
    rcases rc == 0 with _ | _
    · exact Or.inr rfl
    · exact Or.inl rfl
  rcases cleanupError with _ | m0 <;> rcases hrc with h0 | h0 <;>
    simp_all [merge_videos_with_ffmpeg, subprocessRun, ha]

/-- Claim C4 witness: exit code 1 with diagnostics, and a launch
error, both reported as failure with the text surfaced. -/
theorem C4_witness :
    (merge_videos_with_ffmpeg okCheck (.runs 5 1 (chars "out text") (chars "err text"))
      none [chars "RecM01_20240101_000000.mp4"]).success = (1 == 0) ∧
    LogEvent.processFailed 1 (chars "out text") (chars "err text") ∈
      (merge_videos_with_ffmpeg okCheck (.runs 5 1 (chars "out text") (chars "err text"))
        none [chars "RecM01_20240101_000000.mp4"]).events ∧
    (merge_videos_with_ffmpeg okCheck (.failsToLaunch (chars "WinError 2"))
      none [chars "RecM01_20240101_000000.mp4"]).success = false :=
  have h := C4_exit_code_semantics okCheck 5 1 (chars "out text") (chars "err text")
    (chars "WinError 2") none [chars "RecM01_20240101_000000.mp4"] rfl
  ⟨h.1, h.2.1 (by decide), h.2.2.1⟩

/-! ## Claim C6 -/

/-- Whenever the post-discovery guard hands a list to the executor,
that list is nonempty. -/
theorem mergeAfterDiscovery_ne_nil (vfs fs : List (List Char)) (ctx : RunContext)
    (hg : mergeAfterDiscovery vfs ctx = some fs) : fs ≠ [] := by
  rw [mergeAfterDiscovery] at hg
  split at hg
  · cases hg
  · split at hg
    · cases hg
    · rename_i hemp _
      cases hg
      intro hfs
      rw [hfs] at hemp
      exact hemp rfl

/-- Claim C6: the merge executor is never invoked with an empty
segment list, so a zero-segment playlist is never built. -/
theorem C6_no_empty_invocation (ctx : RunContext) (fs : List (List Char))
    (h : merge_videos_invocation ctx = some fs) :
    fs ≠ [] ∧ playlistLines fs ≠ [] := by
  obtain ⟨ofe, mode, ife, dl, sel, oe, uc⟩ := ctx
  have hne : fs ≠ [] := by
    rw [merge_videos_invocation] at h
    split at h
    · cases h
    · rcases mode with _ | _
      · simp only at h
        split at h
        · cases h
        · exact mergeAfterDiscovery_ne_nil _ _ _ h
      · simp only at h
        exact mergeAfterDiscovery_ne_nil _ _ _ h
  refine ⟨hne, ?_⟩
  rw [playlistLines]
  simpa using hne

/-- Claim C6 witness: a concrete run context that does invoke the
executor, with a nonempty list and a nonempty playlist. -/
theorem C6_witness :
    [chars "RecM01_20240315_143022.mp4"] ≠ ([] : List (List Char)) ∧
    playlistLines [chars "RecM01_20240315_143022.mp4"] ≠ [] :=
  C6_no_empty_invocation
    { outputFolderExists := true, mode := Mode.files, inputFolderExists := true,
      dirListing := [], selected_files := [chars "RecM01_20240315_143022.mp4"],
      outputExists := false, userConfirmsOverwrite := true }
    [chars "RecM01_20240315_143022.mp4"] (by decide)

/-! ## Claim C7 -/

/-- Claim C7: on every exit path of the merge executor — success,
failure, or exception — the temporary playlist is deleted afterwards
(when deletion itself raises, the file survives but the failure is
logged as a warning and the operation's result is unchanged). -/
theorem C7_playlist_cleanup (check : CheckResult) (proc : ProcBehavior)
    (files : List (List Char)) (m : List Char) (ha : check.available = true) :
    (merge_videos_with_ffmpeg check proc none files).playlistExistsAfter = false ∧
    (merge_videos_with_ffmpeg check proc (some m) files).success =
      (merge_videos_with_ffmpeg check proc none files).success ∧
    LogEvent.cleanupWarning m ∈
      (merge_videos_with_ffmpeg check proc (some m) files).events := by
  rcases proc with ⟨d, rc, out, err⟩ | msg <;>
    simp [merge_videos_with_ffmpeg, subprocessRun, ha]

/-- Claim C7 witness: a failing run with a failing deletion still
reports the run's own result and logs the warning. -/
theorem C7_witness :
    (merge_videos_with_ffmpeg okCheck (.runs 5 1 [] (chars "boom")) none
      [chars "RecM01_20240315_143022.mp4"]).playlistExistsAfter = false ∧
    (merge_videos_with_ffmpeg okCheck (.runs 5 1 [] (chars "boom"))
      (some (chars "Permission denied")) [chars "RecM01_20240315_143022.mp4"]).success =
      (merge_videos_with_ffmpeg okCheck (.runs 5 1 [] (chars "boom")) none
        [chars "RecM01_20240315_143022.mp4"]).success ∧
    LogEvent.cleanupWarning (chars "Permission denied") ∈
      (merge_videos_with_ffmpeg okCheck (.runs 5 1 [] (chars "boom"))
        (some (chars "Permission denied")) [chars "RecM01_20240315_143022.mp4"]).events :=
  C7_playlist_cleanup okCheck (.runs 5 1 [] (chars "boom"))
    [chars "RecM01_20240315_143022.mp4"] (chars "Permission denied") rfl

/-! ## Claim C8 -/

/-- The pipeline keeps distinct paths distinct. -/
theorem parse_and_sort_nodup (files : List (List Char)) (h : files.Nodup) :
    (parse_and_sort_files files).Nodup := by
  have hentries : (parsedEntries files).Nodup := by
    rw [parsedEntries]
    apply List.Nodup.filterMap
    · intro p q e hep heq
      rcases hkp : parseFilename (basename p) with _ | dtp <;> rw [hkp] at hep
      · cases hep
      · rcases hkq : parseFilename (basename q) with _ | dtq <;> rw [hkq] at heq
        · cases heq
        · rw [Option.mem_def] at hep heq
          cases hep
          cases heq
          rfl
    · exact h
  haveI : IsTotal Entry entryLE := ⟨entryLE_total⟩
  haveI : IsTrans Entry entryLE := ⟨entryLE_trans⟩
  have hsorted : ((parsedEntries files).insertionSort entryLE).Nodup :=
    (List.perm_insertionSort entryLE (parsedEntries files)).symm.nodup hentries
  simp only [parse_and_sort_files]
  split
  · exact List.nodup_nil
  · apply hsorted.map_on
    intro x hx y hy hxy
    rw [List.mem_insertionSort] at hx hy
    obtain ⟨hkx, hbx⟩ := parsedEntries_mem files x hx
    obtain ⟨hky, hby⟩ := parsedEntries_mem files y hy
    have hts : x.1 = y.1 := by
      have := hky
      rw [← hxy, hkx] at this
      exact (Option.some.inj this)
    have hbn : x.2.2 = y.2.2 := by rw [hbx, hby, hxy]
    exact Prod.ext hts (Prod.ext hxy hbn)

/-- Claim C8: directory-mode discovery never returns the same path
twice, even when one file matches several case-variant extension
patterns (the glob results are collected into a set). -/
theorem C8_discovery_no_duplicates (dirListing : List (List Char)) :
    (find_video_files_in_folder dirListing).Nodup := by
  rw [find_video_files_in_folder]
  split
  · exact List.nodup_nil
  · exact parse_and_sort_nodup _ (List.nodup_dedup _)

/-! ## Claim C10 -/

theorem matchAt_none_of_not_lead (s : List Char) (h : leadsWith recM0 s = false) :
    matchAt s = none := by
  rw [matchAt, h, if_neg Bool.false_ne_true]

theorem takeDigits_of_headDigit_false (l : List Char) (h : headDigit l = false) :
    takeDigits l = ([], l) := by
  cases l with
  | nil => rfl
  | cons c t =>
    rw [headDigit] at h
    rw [takeDigits, h, if_neg Bool.false_ne_true]

/-- The pattern needs at least one digit right after `RecM0`. -/
theorem matchAt_none_of_no_digit (s : List Char) (h : headDigit (s.drop 5) = false) :
    matchAt s = none := by
  rw [matchAt]
  split
  · rw [takeDigits_of_headDigit_false _ h]
    rfl
  · rfl

theorem noRecM0Inside_spec (l : List Char) (h : noRecM0Inside l = true) (j : Nat) :
    leadsWith recM0 (l.drop j) = false := by
  induction l generalizing j with
  | nil => rw [List.drop_nil]; rfl
  | cons c t ih =>
    rw [noRecM0Inside, Bool.and_eq_true] at h
    cases j with
    | zero =>
      rw [List.drop_zero]
      have h1 := h.1
      rwa [Bool.not_eq_true'] at h1
    | succ j =>
      rw [List.drop_succ_cons]
      exact ih h.2 j

/-- A search over a string in which no position matches returns
nothing. -/
theorem searchTimestamp_eq_none (l : List Char)
    (h : ∀ j, matchAt (l.drop j) = none) : searchTimestamp l = none := by
  induction l with
  | nil => rfl
  | cons c t ih =>
    have h0 : matchAt (c :: t) = none := h 0
    rw [searchTimestamp, h0]
    exact ih (fun j => h (j + 1))

/-- Claim C10 counterexample: `RecM0_RecM01_20240101_000000.mp4` begins
with `RecM0` with no digit immediately after it and passes the
explicit-file-mode filter, yet the parser does NOT exclude it: the
pattern matches at a later position of the name. -/
theorem C10_counterexample :
    browse_valid_files [chars "RecM0_RecM01_20240101_000000.mp4"] =
      [chars "RecM0_RecM01_20240101_000000.mp4"] ∧
    headDigit ((basename (chars "RecM0_RecM01_20240101_000000.mp4")).drop 5) = false ∧
    parseFilename (basename (chars "RecM0_RecM01_20240101_000000.mp4")) =
      some ⟨2024, 1, 1, 0, 0, 0⟩ := by
  decide

/-- Claim C10 (amended): a filename that begins with `RecM0` with no
digit immediately after the prefix, and in which `RecM0` occurs nowhere
else, passes the explicit-file-mode prefix filter yet is excluded by
the parser, because the timestamp pattern requires at least one digit
between `RecM0` and the first underscore. -/
theorem C10_filter_passes_parser_excludes (p : List Char)
    (h1 : leadsWith recM0 (basename p) = true)
    (h2 : headDigit ((basename p).drop 5) = false)
    (h3 : noRecM0Inside ((basename p).drop 1) = true) :
    browse_valid_files [p] = [p] ∧ parseFilename (basename p) = none ∧
    parse_and_sort_files [p] = [] := by
  have hsearch : searchTimestamp (basename p) = none := by
    apply searchTimestamp_eq_none
    intro j
    cases j with
    | zero =>
      rw [List.drop_zero]
      exact matchAt_none_of_no_digit _ h2
    | succ j =>
      apply matchAt_none_of_not_lead
      have hlead := noRecM0Inside_spec _ h3 j
      rw [List.drop_drop] at hlead
      rw [Nat.add_comm 1 j] at hlead
      exact hlead
  have hparse : parseFilename (basename p) = none := by
    rw [parseFilename, hsearch]
  refine ⟨?_, hparse, ?_⟩
  · rw [browse_valid_files, List.filter_cons, h1, if_pos rfl, List.filter_nil]
  · rw [parse_and_sort_files, parsedEntries_cons_none [] p hparse]
    rfl

/-- Claim C10 witness: `RecM0_20240101_000000.mp4` passes the prefix
filter and is excluded by the parser. -/
theorem C10_witness :
    browse_valid_files [chars "RecM0_20240101_000000.mp4"] =
      [chars "RecM0_20240101_000000.mp4"] ∧
    parseFilename (basename (chars "RecM0_20240101_000000.mp4")) = none ∧
    parse_and_sort_files [chars "RecM0_20240101_000000.mp4"] = [] :=
  C10_filter_passes_parser_excludes (chars "RecM0_20240101_000000.mp4")
    (by decide) (by decide) (by decide)

end CameraPan
